import Mathlib

/-!
Shallow embedding of `cpp-utils`' `parallell.hpp` (the X10-style
`async`/`finish` barrier) and verification of its specified properties.

The header defines:
  * `scope_waiter`  — a scoped release token holding a reference `sem_t& mr_sem`
    to a barrier's semaphore; its destructor performs `sem_post(&mr_sem)`.
  * `synched_t`     — the finish barrier: a POSIX semaphore `m_sem`
    (initialised to 0) and a 32-bit counter `tbb::atomic<unsigned int> m_count`
    (initialised to 0); `register_lock` does `m_count++` and returns a
    `scope_waiter` on `m_sem`; `wait_for_all` runs
    `for (i = 0; i < m_count; ++i) sem_wait(&m_sem);  m_count = 0;`;
    the destructor calls `wait_for_all()`.
  * `contended_caller` / `simple_caller` and two local `forwarded_callable`
    classes — task wrappers handed to the TBB executor.
  * `apply_obj_func<N>::applyTuple` — recursive tuple expansion applying a
    callable to captured arguments.
  * `parallel` / `async` — the two (textually identical) submission entry
    points, four constructor shapes each.

Modelling conventions:
  * A semaphore value is a `Nat`; `sem_post` is `+ 1`; `sem_wait` blocks when
    the value is `0` (modelled as `Option`: `none` = the call blocks with no
    signal ever arriving, i.e. never returns).
  * The `sem_t&` reference held by a token is modelled by the identifier
    `sem_id` of the barrier whose semaphore it aliases; applying the token's
    destructor to a barrier posts that barrier's semaphore exactly when the
    identifiers match.
  * `m_count` is an `unsigned int`, so the increment wraps mod `2^32`.
  * For the temporal claims about a waiter racing completing tasks we give a
    small-step semantics: a configuration holds the barrier and the waiter's
    position in its loop, and actions interleave task-completion signals
    (`sem_post` from a destroyed token) with single steps of the waiter.
  * Heterogeneous C++ parameter packs are modelled homogeneously: a captured
    tuple is a `List` and the callable takes the argument list; the recursion
    structure of `applyTuple` (peel `std::get<N-1>`, prepend, recurse, call
    when zero remain) is kept exactly.
-/

namespace CppUtils

/-- The modulus of `unsigned int` (the type of `m_count`). -/
def UINT_MOD : Nat := 2 ^ 32

/-- Model of `synched_t`.  `sem_id` identifies this barrier's `sem_t m_sem`
(the address the tokens' references alias), `m_sem` is the semaphore's current
value, `m_count` the pending-registration counter. -/
structure synched_t where
  sem_id : Nat
  m_sem : Nat
  m_count : Nat
deriving Repr, DecidableEq

/-- Constructor `synched_t::synched_t()`: `m_count = 0; sem_init(&m_sem, 0, 0);` —
a fresh barrier with semaphore value 0 and counter 0. -/
def synched_t.init (id : Nat) : synched_t :=
  { sem_id := id, m_sem := 0, m_count := 0 }

/-- Model of `scope_waiter`: it stores only the reference `sem_t& mr_sem`,
modelled as the identifier of the aliased semaphore. -/
structure scope_waiter where
  mr_sem : Nat
deriving Repr, DecidableEq

/-- Copy constructor `scope_waiter::scope_waiter(const scope_waiter&)`: the copy aliases the
same semaphore reference (`mr_sem(other.mr_sem)`). -/
def scope_waiter.copy (w : scope_waiter) : scope_waiter :=
  { mr_sem := w.mr_sem }

/-- Destructor `scope_waiter::~scope_waiter()`: `sem_post(&mr_sem)` — a non-blocking
increment of the referenced semaphore.  Applied to a barrier state, it posts
exactly when the token references that barrier's semaphore. -/
def scope_waiter.destroy (w : scope_waiter) (s : synched_t) : synched_t :=
  if w.mr_sem = s.sem_id then { s with m_sem := s.m_sem + 1 } else s

/-- Method `synched_t::register_lock()`: `m_count++; return scope_waiter(m_sem);`.
The increment is on an `unsigned int`, hence mod `2^32`.  Returns the updated
barrier and the fresh token referencing this barrier's semaphore. -/
def synched_t.register_lock (s : synched_t) : synched_t × scope_waiter :=
  ({ s with m_count := (s.m_count + 1) % UINT_MOD }, { mr_sem := s.sem_id })

/-- The loop body of `wait_for_all`: perform `n` successive `sem_wait`s on the
barrier's semaphore.  `sem_wait` on a zero-valued semaphore blocks; with no
further signals arriving (the sequential view) this is `none`. -/
def semWaitLoop : Nat → synched_t → Option synched_t
  | 0, s => some s
  | n + 1, s =>
    if s.m_sem = 0 then none
    else semWaitLoop n { s with m_sem := s.m_sem - 1 }

/-- Method `synched_t::wait_for_all()`:
`for (i = 0; i < m_count; ++i) sem_wait(&m_sem);  m_count = 0;`.
(Sequentially `m_count` is not modified during the loop, so the re-read bound
equals the value at loop entry.) -/
def synched_t.wait_for_all (s : synched_t) : Option synched_t :=
  (semWaitLoop s.m_count s).map fun t => { t with m_count := 0 }

/-- Destructor `synched_t::~synched_t()`: `wait_for_all();`. -/
def synched_t.destructor (s : synched_t) : Option synched_t :=
  s.wait_for_all

/-- Iterate `register_lock` `n` times (registering `n` tasks), discarding the
tokens' values (each issued token references the barrier's semaphore). -/
def registerN : Nat → synched_t → synched_t
  | 0, s => s
  | n + 1, s => registerN n (s.register_lock).1

/-- Destroy the original token together with `k` copies of it:
`destroyCopies k w s` destroys one fresh copy of `w` at each of the first `k`
steps and finally destroys `w` itself. -/
def destroyCopies : Nat → scope_waiter → synched_t → synched_t
  | 0, w, s => w.destroy s
  | k + 1, w, s => destroyCopies k w ((w.copy).destroy s)

/-! ### Small-step semantics for a waiter racing completing tasks

The waiter executes `wait_for_all` on the barrier; concurrently, completing
tasks destroy their tokens, each destruction posting the semaphore once. -/

/-- The waiter's program counter inside `wait_for_all`:
`waiting i` = `i` loop iterations (successful `sem_wait`s) completed and the
loop condition `i < m_count` about to be tested; `done` = returned. -/
inductive WaiterPC where
  | waiting (i : Nat)
  | done
deriving Repr, DecidableEq

/-- A configuration: the barrier and the waiter's position. -/
structure Config where
  bar : synched_t
  pc : WaiterPC
deriving Repr, DecidableEq

/-- Interleaved actions: `signal` is a completing task's token destruction
(`sem_post`); `waiterStep` is one step of the waiter's loop. -/
inductive Action where
  | signal
  | waiterStep
deriving Repr, DecidableEq

/-- One interleaving step.  `signal` posts the semaphore.  `waiterStep` tests
the loop condition: if `i < m_count` it attempts `sem_wait`, which blocks
(`none`) on a zero semaphore and otherwise decrements it; if the loop is
exhausted it performs `m_count = 0` and returns.  A finished waiter has no
step. -/
def step (c : Config) : Action → Option Config
  | .signal =>
    some { c with bar := { c.bar with m_sem := c.bar.m_sem + 1 } }
  | .waiterStep =>
    match c.pc with
    | .waiting i =>
      if i < c.bar.m_count then
        if c.bar.m_sem = 0 then none
        else some { bar := { c.bar with m_sem := c.bar.m_sem - 1 },
                    pc := .waiting (i + 1) }
      else some { bar := { c.bar with m_count := 0 }, pc := .done }
    | .done => none

/-- Run a sequence of interleaved actions; `none` if some action blocked. -/
def run (c : Config) : List Action → Option Config
  | [] => some c
  | a :: tr =>
    match step c a with
    | some c' => run c' tr
    | none => none

/-- The number of task-completion signals in a trace. -/
def countSignals : List Action → Nat
  | [] => 0
  | .signal :: tr => countSignals tr + 1
  | .waiterStep :: tr => countSignals tr

/-! ### Basic lemmas about the barrier operations -/

lemma register_lock_fst (s : synched_t) :
    (s.register_lock).1 =
      { s with m_count := (s.m_count + 1) % UINT_MOD } := rfl

lemma registerN_sem_id (n : Nat) (s : synched_t) :
    (registerN n s).sem_id = s.sem_id := by
  induction n generalizing s with
  | zero => rfl
  | succ n ih => simp [registerN, register_lock_fst, ih]

lemma registerN_m_sem (n : Nat) (s : synched_t) :
    (registerN n s).m_sem = s.m_sem := by
  induction n generalizing s with
  | zero => rfl
  | succ n ih => simp [registerN, register_lock_fst, ih]

lemma registerN_m_count (n : Nat) (s : synched_t) (a : Nat)
    (h : s.m_count = a % UINT_MOD) :
    (registerN n s).m_count = (a + n) % UINT_MOD := by
  induction n generalizing s a with
  | zero => simpa using h
  | succ n ih =>
    have h1 : ((s.register_lock).1).m_count = (a + 1) % UINT_MOD := by
      rw [register_lock_fst]
      simp only [h]
      rw [Nat.add_mod a 1]
      simp [UINT_MOD]
    have := ih (s.register_lock).1 (a + 1) h1
    simpa [registerN, Nat.add_assoc, Nat.add_comm 1 n] using this

lemma registerN_init_m_count (n id : Nat) (h : n < UINT_MOD) :
    (registerN n (synched_t.init id)).m_count = n := by
  have h0 : (synched_t.init id).m_count = 0 % UINT_MOD := rfl
  rw [registerN_m_count n _ 0 h0, Nat.zero_add, Nat.mod_eq_of_lt h]

lemma semWaitLoop_of_le (n : Nat) (s : synched_t) (h : n ≤ s.m_sem) :
    semWaitLoop n s =
      some { s with m_sem := s.m_sem - n } := by
  induction n generalizing s with
  | zero => simp [semWaitLoop]
  | succ n ih =>
    have hpos : s.m_sem ≠ 0 := by omega
    rw [semWaitLoop, if_neg hpos]
    rw [ih { s with m_sem := s.m_sem - 1 } (by simp; omega)]
    simp
    omega

lemma semWaitLoop_isSome (n : Nat) (s : synched_t) :
    (semWaitLoop n s).isSome ↔ n ≤ s.m_sem := by
  induction n generalizing s with
  | zero => simp [semWaitLoop]
  | succ n ih =>
    by_cases h0 : s.m_sem = 0
    · simp [semWaitLoop, h0]
    · rw [semWaitLoop, if_neg h0, ih]
      simp
      omega

lemma wait_for_all_of_le (s : synched_t) (h : s.m_count ≤ s.m_sem) :
    s.wait_for_all =
      some { sem_id := s.sem_id, m_sem := s.m_sem - s.m_count, m_count := 0 } := by
  rw [synched_t.wait_for_all, semWaitLoop_of_le _ _ h]
  rfl

lemma wait_for_all_isSome (s : synched_t) :
    (s.wait_for_all).isSome ↔ s.m_count ≤ s.m_sem := by
  rw [← semWaitLoop_isSome s.m_count s, synched_t.wait_for_all]
  cases semWaitLoop s.m_count s <;> simp

/-! ### Lemmas about the interleaving semantics -/

lemma run_done_lower_bound :
    ∀ (tr : List Action) (c c' : Config) (i : Nat),
      c.pc = WaiterPC.waiting i →
      run c tr = some c' → c'.pc = WaiterPC.done →
      c.bar.m_count ≤ c.bar.m_sem + countSignals tr + i := by
  intro tr
  induction tr with
  | nil =>
    intro c c' i hpc hrun hdone
    simp only [run, Option.some_inj] at hrun
    subst hrun
    rw [hpc] at hdone
    exact absurd hdone (by simp)
  | cons a tr ih =>
    intro c c' i hpc hrun hdone
    cases a with
    | signal =>
      simp only [run, step] at hrun
      have := ih _ c' i (by simpa using hpc) hrun hdone
      simp only [countSignals] at this ⊢
      omega
    | waiterStep =>
      simp only [run, step, hpc] at hrun
      by_cases hlt : i < c.bar.m_count
      · rw [if_pos hlt] at hrun
        by_cases h0 : c.bar.m_sem = 0
        · rw [if_pos h0] at hrun
          exact absurd hrun (by simp)
        · rw [if_neg h0] at hrun
          simp only [] at hrun
          have := ih _ c' (i + 1) rfl hrun hdone
          simp only [countSignals] at this ⊢
          omega
      · omega

lemma run_signals (k : Nat) (c : Config) (tr : List Action) :
    run c (List.replicate k .signal ++ tr) =
      run { c with bar := { c.bar with m_sem := c.bar.m_sem + k } } tr := by
  induction k generalizing c with
  | zero => simp
  | succ k ih =>
    rw [List.replicate_succ, List.cons_append]
    show run { c with bar := { c.bar with m_sem := c.bar.m_sem + 1 } }
        (List.replicate k Action.signal ++ tr) = _
    rw [ih]
    have h : c.bar.m_sem + 1 + k = c.bar.m_sem + (k + 1) := by omega
    simp only [h]

lemma run_drain (k : Nat) :
    ∀ (i : Nat) (c : Config),
      c.pc = WaiterPC.waiting i →
      c.bar.m_count = i + k →
      k ≤ c.bar.m_sem →
      run c (List.replicate (k + 1) .waiterStep) =
        some { bar := { sem_id := c.bar.sem_id, m_sem := c.bar.m_sem - k,
                        m_count := 0 },
               pc := .done } := by
  induction k with
  | zero =>
    intro i c hpc hcnt _
    simp [run, step, hpc, hcnt]
  | succ k ih =>
    intro i c hpc hcnt hsem
    obtain ⟨⟨sid, sem, cnt⟩, pc⟩ := c
    simp only at hpc hcnt hsem
    subst hpc hcnt
    rw [List.replicate_succ, run]
    have h0 : sem ≠ 0 := by omega
    simp only [step, if_pos (by omega : i < i + (k + 1)), if_neg h0]
    have := ih (i + 1)
      { bar := { sem_id := sid, m_sem := sem - 1, m_count := i + (k + 1) },
        pc := .waiting (i + 1) }
      rfl (by simp; omega) (by simp; omega)
    simp only at this
    rw [this]
    have h1 : sem - 1 - k = sem - (k + 1) := by omega
    simp only [h1]

/-- A trace along which a waiter over a barrier with `n` pending registrations
and an empty semaphore completes: all `n` tasks signal, then the waiter drains
them and exits its loop. -/
def completingTrace (n : Nat) : List Action :=
  List.replicate n .signal ++ List.replicate (n + 1) .waiterStep

lemma countSignals_replicate_signal (n : Nat) :
    countSignals (List.replicate n .signal) = n := by
  induction n with
  | zero => rfl
  | succ n ih => simp [List.replicate_succ, countSignals, ih]

lemma countSignals_replicate_waiterStep (n : Nat) :
    countSignals (List.replicate n .waiterStep) = 0 := by
  induction n with
  | zero => rfl
  | succ n ih => simp [List.replicate_succ, countSignals, ih]

lemma countSignals_append (tr tr' : List Action) :
    countSignals (tr ++ tr') = countSignals tr + countSignals tr' := by
  induction tr with
  | nil => simp [countSignals]
  | cons a tr ih =>
    cases a with
    | signal =>
      simp [countSignals, ih]
      omega
    | waiterStep => simp [countSignals, ih]

lemma countSignals_completingTrace (n : Nat) :
    countSignals (completingTrace n) = n := by
  rw [completingTrace, countSignals_append, countSignals_replicate_signal,
    countSignals_replicate_waiterStep]
  omega

lemma run_completingTrace (id n : Nat) :
    run { bar := { sem_id := id, m_sem := 0, m_count := n },
          pc := .waiting 0 } (completingTrace n) =
      some { bar := { sem_id := id, m_sem := 0, m_count := 0 },
             pc := .done } := by
  rw [completingTrace, run_signals]
  have := run_drain n 0
    { bar := { sem_id := id, m_sem := 0 + n, m_count := n }, pc := .waiting 0 }
    rfl (by simp) (by simp)
  simpa using this

/-! ### Argument binding: `apply_obj_func<N>::applyTuple`

The C++ recursion, with `t` the captured `std::tuple` and `args...` the
already-expanded pack:
  * `N > 0`:  `applyTuple(f, t, args...) =
               apply_obj_func<N-1>::applyTuple(f, t, std::get<N-1>(t), args...)`
  * `N = 0`:  `f(args...)`.
The heterogeneous tuple/pack is modelled homogeneously: `t` and `args` are
lists and the callable consumes the final argument list. -/

def applyTuple {α β : Type} [Inhabited α] (f : List α → β) (t : List α) :
    Nat → List α → β
  | 0, args => f args
  | n + 1, args => applyTuple f t n (t.getD n default :: args)

lemma applyTuple_eq_take {α β : Type} [Inhabited α] (f : List α → β)
    (t : List α) :
    ∀ (n : Nat), n ≤ t.length → ∀ (args : List α),
      applyTuple f t n args = f (t.take n ++ args) := by
  intro n
  induction n with
  | zero => intro _ args; simp [applyTuple]
  | succ n ih =>
    intro hn args
    rw [applyTuple, ih (by omega)]
    have hlt : n < t.length := by omega
    have hget : t.getD n default = t.get ⟨n, hlt⟩ := by
      rw [List.getD_eq_getElem?_getD, List.getElem?_eq_getElem hlt]
      rfl
    rw [hget]
    congr 1
    rw [← List.take_concat_get' t n hlt]
    simp only [List.append_assoc, List.singleton_append, List.get_eq_getElem]

/-! ### Task wrappers -/

/-- Model of `contended_caller<function_t>`: the barrier-tracked task wrapper,
holding the release token `m_sw` and the callable `m_func`. -/
structure contended_caller (F : Type) where
  m_sw : scope_waiter
  m_func : F
deriving Repr, DecidableEq

/-- Constructor `contended_caller::contended_caller(synched_t& sb, function_t& func)`:
member initialisation `m_sw(sb.register_lock()), m_func(func)` — the
registration happens in the submitting context, during construction.
Returns the barrier as updated by `register_lock` together with the wrapper. -/
def contended_caller.construct {F : Type} (sb : synched_t) (func : F) :
    synched_t × contended_caller F :=
  let r := sb.register_lock
  (r.1, { m_sw := r.2, m_func := func })

/-- The executor's lifecycle for a `contended_caller` whose callable may raise
(modelled as `Unit → Except E Unit`): run `execute()` — which invokes
`m_func()` — then free the task, destroying its members; destroying `m_sw`
posts the semaphore.  The member destruction happens whether the callable
returned normally (`Except.ok`) or raised (`Except.error`). -/
def contended_caller.runAndFree {E : Type}
    (t : contended_caller (Unit → Except E Unit)) (sb : synched_t) :
    Except E Unit × synched_t :=
  (t.m_func (), t.m_sw.destroy sb)

/-- Model of `simple_caller<function_t>`: the untracked task wrapper — only
the callable, no release token. -/
structure simple_caller (F : Type) where
  m_func : F
deriving Repr, DecidableEq

/-! ### Submission entry points: `parallel` and `async`

Each constructor allocates a task wrapper (performing any barrier
registration in the submitting context) and hands it to `tbb::task::spawn`.
A submission is modelled as a function from the submitting context's barrier
state to the pair (barrier state when the entry point returns, unit of work
handed to the executor).  The untracked constructors never mention the
barrier; threading the state through them makes that absence of effect a
provable identity. -/

/-- The unit of work handed to `tbb::task::spawn`, by constructor shape. -/
inductive TaskUnit (F P : Type) where
  | contended (m_sw : scope_waiter) (m_func : F)
  | simple (m_func : F)
  | forwardedTracked (m_parameters : List P) (m_function : F)
      (m_sw : scope_waiter)
  | forwarded (m_parameters : List P) (m_function : F)
deriving Repr, DecidableEq

namespace parallel

/-- Constructor `parallel(synched_t& sb, function_t func)`: allocate a
`contended_caller(sb, func)` (whose construction calls `sb.register_lock()`)
and spawn it. -/
def tracked {F P : Type} (sb : synched_t) (func : F) :
    synched_t × TaskUnit F P :=
  let r := sb.register_lock
  (r.1, .contended r.2 func)

/-- Constructor `parallel(function_t func)`: allocate a `simple_caller(func)` and spawn
it; no barrier is involved. -/
def untracked {F P : Type} (sb : synched_t) (func : F) :
    synched_t × TaskUnit F P :=
  (sb, .simple func)

/-- Constructor `parallel(synched_t& sb, function_t f, parameters... params)`: allocate
the local `forwarded_callable(sb, f, params...)` — member initialisation
copies the parameter pack into `m_parameters`, stores `m_function`, and calls
`sb.register_lock()` for `m_sw` — and spawn it. -/
def trackedArgs {F P : Type} (sb : synched_t) (f : F) (params : List P) :
    synched_t × TaskUnit F P :=
  let r := sb.register_lock
  (r.1, .forwardedTracked params f r.2)

/-- Constructor `parallel(function_t f, parameters... params)`: allocate the untracked
local `forwarded_callable(f, params...)` and spawn it; no barrier is
involved. -/
def untrackedArgs {F P : Type} (sb : synched_t) (f : F) (params : List P) :
    synched_t × TaskUnit F P :=
  (sb, .forwarded params f)

end parallel

namespace async

/-- Constructor `async(synched_t& sb, function_t func)`: allocate a
`contended_caller(sb, func)` and spawn it. -/
def tracked {F P : Type} (sb : synched_t) (func : F) :
    synched_t × TaskUnit F P :=
  let r := sb.register_lock
  (r.1, .contended r.2 func)

/-- Constructor `async(function_t func)`: allocate a `simple_caller(func)` and spawn
it. -/
def untracked {F P : Type} (sb : synched_t) (func : F) :
    synched_t × TaskUnit F P :=
  (sb, .simple func)

/-- Constructor `async(synched_t& sb, function_t f, parameters... params)`: allocate the
local `forwarded_callable(sb, f, params...)` and spawn it. -/
def trackedArgs {F P : Type} (sb : synched_t) (f : F) (params : List P) :
    synched_t × TaskUnit F P :=
  let r := sb.register_lock
  (r.1, .forwardedTracked params f r.2)

/-- Constructor `async(function_t f, parameters... params)`: allocate the untracked local
`forwarded_callable(f, params...)` and spawn it. -/
def untrackedArgs {F P : Type} (sb : synched_t) (f : F) (params : List P) :
    synched_t × TaskUnit F P :=
  (sb, .forwarded params f)

end async

/-! ### Further helper lemmas -/

lemma synched_t_eq_of_fields (u : synched_t) (a b c : Nat)
    (h1 : u.sem_id = a) (h2 : u.m_sem = b) (h3 : u.m_count = c) :
    u = { sem_id := a, m_sem := b, m_count := c } := by
  cases u
  simp_all

lemma registerN_init (N id : Nat) (hN : N < UINT_MOD) :
    registerN N (synched_t.init id) =
      { sem_id := id, m_sem := 0, m_count := N } :=
  synched_t_eq_of_fields _ _ _ _ (registerN_sem_id N _)
    (registerN_m_sem N _) (registerN_init_m_count N id hN)

lemma destroyCopies_m_sem (k : Nat) (w : scope_waiter) :
    ∀ (s : synched_t), w.mr_sem = s.sem_id →
      (destroyCopies k w s).m_sem = s.m_sem + (k + 1) := by
  induction k with
  | zero =>
    intro s h
    simp [destroyCopies, scope_waiter.destroy, h]
  | succ k ih =>
    intro s h
    rw [destroyCopies]
    have hd : (w.copy).destroy s = { s with m_sem := s.m_sem + 1 } := by
      simp [scope_waiter.copy, scope_waiter.destroy, h]
    rw [hd, ih _ (by simp [h])]
    simp
    omega

lemma destroyCopies_m_count (k : Nat) (w : scope_waiter) :
    ∀ (s : synched_t), (destroyCopies k w s).m_count = s.m_count := by
  induction k with
  | zero =>
    intro s
    rw [destroyCopies, scope_waiter.destroy]
    split <;> rfl
  | succ k ih =>
    intro s
    rw [destroyCopies, ih]
    rw [scope_waiter.destroy]
    split <;> rfl

/-! ### The claims -/

/-- C2: `wait_for_all()` performs a blocking decrement on the semaphore once
per unit recorded in `pending_count` at the time its loop begins — so its net
effect, when the signals are available, is to lower the semaphore by exactly
`m_count` — then resets `m_count` to zero; it returns exactly when that many
signals have been received, and with `m_count = 0` it performs no decrement
and returns immediately with the state unchanged. -/
theorem C2_wait_for_all_drains_count :
    (∀ s : synched_t, s.m_count ≤ s.m_sem →
      s.wait_for_all =
        some { sem_id := s.sem_id, m_sem := s.m_sem - s.m_count,
               m_count := 0 }) ∧
    (∀ s : synched_t, (s.wait_for_all).isSome ↔ s.m_count ≤ s.m_sem) ∧
    (∀ id sem : Nat,
      (synched_t.mk id sem 0).wait_for_all = some (synched_t.mk id sem 0)) :=
  ⟨wait_for_all_of_le, wait_for_all_isSome, fun id sem => by
    simp [synched_t.wait_for_all, semWaitLoop]⟩

/-- C2 witness: a barrier with 2 pending registrations and 3 available
signals drains to semaphore value 1 and counter 0. -/
theorem C2_wait_for_all_drains_count_witness :
    (synched_t.mk 0 3 2).m_count ≤ (synched_t.mk 0 3 2).m_sem ∧
    (synched_t.mk 0 3 2).wait_for_all = some (synched_t.mk 0 1 0) :=
  ⟨by decide, by
    have h := C2_wait_for_all_drains_count.1 (synched_t.mk 0 3 2) (by decide)
    simpa using h⟩

/-- C3: `register_lock()` increments `pending_count` by one (as an
`unsigned int`, i.e. mod `2^32`; exactly one whenever no wraparound occurs),
returns a fresh token referencing this barrier's semaphore, is total (no
failure mode), and modifies no other barrier state: the semaphore value and
the barrier's identity are untouched — in particular it does not signal the
semaphore. -/
theorem C3_register_lock_increments (s : synched_t) :
    ((s.register_lock).1.m_count = (s.m_count + 1) % UINT_MOD) ∧
    (s.m_count + 1 < UINT_MOD →
      (s.register_lock).1.m_count = s.m_count + 1) ∧
    ((s.register_lock).2.mr_sem = s.sem_id) ∧
    ((s.register_lock).1.m_sem = s.m_sem) ∧
    ((s.register_lock).1.sem_id = s.sem_id) := by
  refine ⟨rfl, fun h => ?_, rfl, rfl, rfl⟩
  show (s.m_count + 1) % UINT_MOD = s.m_count + 1
  exact Nat.mod_eq_of_lt h

/-- C3 witness: on a fresh barrier the counter goes from 0 to exactly 1. -/
theorem C3_register_lock_increments_witness :
    (synched_t.init 5).m_count + 1 < UINT_MOD ∧
    ((synched_t.init 5).register_lock).1.m_count =
      (synched_t.init 5).m_count + 1 :=
  ⟨by decide, (C3_register_lock_increments (synched_t.init 5)).2.1 (by decide)⟩

/-- C4: `~synched_t()` performs exactly one implicit `wait_for_all()` — the
destructor and `wait_for_all` agree on every state — so scope exit returns
exactly when every registered token's signal is available; and in the
interleaved model, if the destructor's wait (racing the still-running tasks)
completes, at least as many signals as outstanding registrations were
received. -/
theorem C4_destructor_implicit_wait (s : synched_t) :
    (s.destructor = s.wait_for_all) ∧
    ((s.destructor).isSome ↔ s.m_count ≤ s.m_sem) ∧
    (∀ (tr : List Action) (c' : Config),
      run { bar := s, pc := .waiting 0 } tr = some c' →
      c'.pc = WaiterPC.done →
      s.m_count ≤ s.m_sem + countSignals tr) := by
  refine ⟨rfl, wait_for_all_isSome s, fun tr c' hrun hdone => ?_⟩
  have h := run_done_lower_bound tr _ c' 0 rfl hrun hdone
  simpa using h

/-- C4 witness: one outstanding registration, trace = the task signals and
the destructor's wait drains it and returns; the bound `1 ≤ 0 + 1` holds. -/
theorem C4_destructor_implicit_wait_witness :
    run { bar := synched_t.mk 0 0 1, pc := .waiting 0 }
        [Action.signal, Action.waiterStep, Action.waiterStep] =
      some { bar := synched_t.mk 0 0 0, pc := .done } ∧
    (synched_t.mk 0 0 1).m_count ≤
      (synched_t.mk 0 0 1).m_sem +
        countSignals [Action.signal, Action.waiterStep, Action.waiterStep] :=
  ⟨by decide,
    (C4_destructor_implicit_wait (synched_t.mk 0 0 1)).2.2
      [Action.signal, Action.waiterStep, Action.waiterStep]
      { bar := synched_t.mk 0 0 0, pc := .done } (by decide) (by decide)⟩

/-- C5 counterexample: the claim "for every registration, exactly one signal
reaches the barrier regardless of how many token copies are made and
destroyed" is false.  On a fresh barrier, register once, copy the returned
token, and destroy both the copy and the original: the semaphore receives two
signals for the single registration, not one — `~scope_waiter()` posts
unconditionally on every instance. -/
theorem C5_copy_double_signals :
    ((destroyCopies 1 ((synched_t.init 0).register_lock).2
        ((synched_t.init 0).register_lock).1).m_sem = 2) ∧
    ¬((destroyCopies 1 ((synched_t.init 0).register_lock).2
        ((synched_t.init 0).register_lock).1).m_sem = 1) := by
  decide

/-- C5 amended: copy construction shares the same wait-primitive reference
and duplicates no registration (neither copying nor destroying tokens changes
`pending_count`); but each token instance — original or copy — posts exactly
one signal on its own destruction, so destroying the original together with
`k` copies delivers `k + 1` signals for the one registration.  Exactly one
signal per registration therefore holds only when exactly one token instance
per registration is destroyed. -/
theorem C5_copy_shares_reference (s : synched_t) (k : Nat) :
    (((s.register_lock).2.copy).mr_sem = (s.register_lock).2.mr_sem) ∧
    ((destroyCopies k (s.register_lock).2 (s.register_lock).1).m_count =
      (s.register_lock).1.m_count) ∧
    ((destroyCopies k (s.register_lock).2 (s.register_lock).1).m_sem =
      s.m_sem + (k + 1)) :=
  ⟨rfl, destroyCopies_m_count k _ _, by
    rw [destroyCopies_m_sem k _ _ rfl]
    rfl⟩

/-- C6: a release token's destruction performs exactly one non-blocking
signal on the barrier's semaphore, and for a tracked task this fires on every
path: the executor lifecycle of a `contended_caller` — run `execute()`
(invoking the callable), then free the task, destroying `m_sw` — posts the
semaphore exactly once whether the callable returns normally or raises, the
callable's outcome being passed through unchanged; in particular a callable
that raises partway (`Except.error e`) still signals, so a waiting
`wait_for_all` still unblocks. -/
theorem C6_token_signals_on_every_path (E : Type) (sb : synched_t)
    (func : Unit → Except E Unit) :
    (((contended_caller.construct sb func).2.runAndFree
        (contended_caller.construct sb func).1).2.m_sem = sb.m_sem + 1) ∧
    (((contended_caller.construct sb func).2.runAndFree
        (contended_caller.construct sb func).1).1 = func ()) ∧
    (∀ e : E,
      ((contended_caller.construct sb
          (fun _ : Unit => (Except.error e : Except E Unit))).2.runAndFree
        (contended_caller.construct sb
          (fun _ : Unit => (Except.error e : Except E Unit))).1).2.m_sem =
        sb.m_sem + 1) := by
  refine ⟨?_, rfl, fun e => ?_⟩ <;>
    simp [contended_caller.construct, contended_caller.runAndFree,
      synched_t.register_lock, scope_waiter.destroy]

/-- C1: for N tasks (N below the 32-bit counter range) registered via
`register_lock` against a fresh barrier, a `wait_for_all` that begins before
the tasks signal never returns early — in every interleaving in which the
waiter finishes, at least N completion signals were received — and when all N
tasks run to completion, each signalling once, the waiter does return. -/
theorem C1_wait_returns_after_all_signals (N id : Nat) (hN : N < UINT_MOD) :
    (∀ (tr : List Action) (c' : Config),
      run { bar := registerN N (synched_t.init id), pc := .waiting 0 } tr =
        some c' →
      c'.pc = WaiterPC.done → N ≤ countSignals tr) ∧
    (∃ tr : List Action, countSignals tr = N ∧
      run { bar := registerN N (synched_t.init id), pc := .waiting 0 } tr =
        some { bar := { sem_id := id, m_sem := 0, m_count := 0 },
               pc := .done }) := by
  rw [registerN_init N id hN]
  constructor
  · intro tr c' hrun hdone
    have h := run_done_lower_bound tr _ c' 0 rfl hrun hdone
    simpa using h
  · exact ⟨completingTrace N, countSignals_completingTrace N,
      run_completingTrace id N⟩

/-- C1 witness at N = 2: no interleaving completes the wait with fewer than
two signals, and the completing trace with exactly two signals exists. -/
theorem C1_wait_returns_after_all_signals_witness :
    2 < UINT_MOD ∧
    ((∀ (tr : List Action) (c' : Config),
      run { bar := registerN 2 (synched_t.init 0), pc := .waiting 0 } tr =
        some c' →
      c'.pc = WaiterPC.done → 2 ≤ countSignals tr) ∧
    (∃ tr : List Action, countSignals tr = 2 ∧
      run { bar := registerN 2 (synched_t.init 0), pc := .waiting 0 } tr =
        some { bar := { sem_id := 0, m_sem := 0, m_count := 0 },
               pc := .done })) :=
  ⟨by decide, C1_wait_returns_after_all_signals 2 0 (by decide)⟩

/-- C7: argument-binding round trip — for a callable bound with captured
values `t` of any arity (`t.length ≥ 0`), invoking the bound unit
(`applyTuple` starting from the full tuple and an empty expanded pack)
applies the callable to exactly the stored values in their original
positional order; arity 3 with (a, b, c) calls the callable with (a, b, c),
and arity 0 is the plain call.  The model is pure, so the result is the same
however long after binding the invocation occurs. -/
theorem C7_applyTuple_roundtrip (α β : Type) [Inhabited α]
    (f g : List α → β) (t : List α) (a b c : α) :
    (applyTuple f t t.length [] = f t) ∧
    (applyTuple g [a, b, c] 3 [] = g [a, b, c]) ∧
    (applyTuple g [] 0 [] = g []) := by
  refine ⟨?_, ?_, rfl⟩
  · rw [applyTuple_eq_take f t t.length (le_refl _) []]
    simp
  · show applyTuple g [a, b, c] 3 [] = g [a, b, c]
    rfl

/-- C8: `wait_for_all` has no timeout: with N outstanding registrations the
wait terminates exactly when every registered token signals — in every
interleaving containing fewer than N completion signals the waiter has not
returned (it is blocked in its loop, never returning and never raising),
while a trace in which all N tokens signal lets it return. -/
theorem C8_wait_no_timeout (N id : Nat) (hN : N < UINT_MOD) :
    (∀ (tr : List Action) (c' : Config),
      countSignals tr < N →
      run { bar := registerN N (synched_t.init id), pc := .waiting 0 } tr =
        some c' →
      c'.pc ≠ WaiterPC.done) ∧
    (∃ tr : List Action,
      run { bar := registerN N (synched_t.init id), pc := .waiting 0 } tr =
        some { bar := { sem_id := id, m_sem := 0, m_count := 0 },
               pc := .done }) := by
  rw [registerN_init N id hN]
  constructor
  · intro tr c' hlt hrun hdone
    have h := run_done_lower_bound tr _ c' 0 rfl hrun hdone
    simp at h
    omega
  · exact ⟨completingTrace N, run_completingTrace id N⟩

/-- C8 witness at N = 1: a signal-free trace leaves the waiter unfinished,
and the completing trace exists. -/
theorem C8_wait_no_timeout_witness :
    1 < UINT_MOD ∧
    ((∀ (tr : List Action) (c' : Config),
      countSignals tr < 1 →
      run { bar := registerN 1 (synched_t.init 0), pc := .waiting 0 } tr =
        some c' →
      c'.pc ≠ WaiterPC.done) ∧
    (∃ tr : List Action,
      run { bar := registerN 1 (synched_t.init 0), pc := .waiting 0 } tr =
        some { bar := { sem_id := 0, m_sem := 0, m_count := 0 },
               pc := .done })) :=
  ⟨by decide, C8_wait_no_timeout 1 0 (by decide)⟩

/-- C9: `parallel` and `async` are two restatements of one mechanism: for
each of the four constructor shapes (tracked/untracked, with/without
forwarded arguments) the two entry points produce the identical
submitting-context barrier update and the identical unit of work handed to
the executor. -/
theorem C9_parallel_async_equivalent (F P : Type) (sb : synched_t) (func : F)
    (params : List P) :
    (@parallel.tracked F P sb func = @async.tracked F P sb func) ∧
    (@parallel.untracked F P sb func = @async.untracked F P sb func) ∧
    (@parallel.trackedArgs F P sb func params =
      @async.trackedArgs F P sb func params) ∧
    (@parallel.untrackedArgs F P sb func params =
      @async.untrackedArgs F P sb func params) :=
  ⟨rfl, rfl, rfl, rfl⟩

/-- C10: every tracked submission registers exactly once in the submitting
context: by the time the entry point returns, `pending_count` has been
incremented by one (exactly one absent 32-bit wraparound) while the semaphore
is untouched, and the unit of work handed to the executor carries the release
token of that registration — so a `wait_for_all` started after submission
counts the task; untracked submissions leave the barrier state identical and
carry no token. -/
theorem C10_tracked_registers_once (F P : Type) (sb : synched_t) (func : F)
    (params : List P) :
    ((@parallel.tracked F P sb func).1.m_count =
      (sb.m_count + 1) % UINT_MOD) ∧
    (sb.m_count + 1 < UINT_MOD →
      (@parallel.tracked F P sb func).1.m_count = sb.m_count + 1) ∧
    ((@parallel.tracked F P sb func).1.m_sem = sb.m_sem) ∧
    ((@parallel.tracked F P sb func).2 =
      TaskUnit.contended { mr_sem := sb.sem_id } func) ∧
    ((@parallel.trackedArgs F P sb func params).1.m_count =
      (sb.m_count + 1) % UINT_MOD) ∧
    ((@parallel.trackedArgs F P sb func params).1.m_sem = sb.m_sem) ∧
    ((@parallel.trackedArgs F P sb func params).2 =
      TaskUnit.forwardedTracked params func { mr_sem := sb.sem_id }) ∧
    ((@parallel.untracked F P sb func).1 = sb) ∧
    ((@parallel.untrackedArgs F P sb func params).1 = sb) := by
  refine ⟨rfl, fun h => ?_, rfl, rfl, rfl, rfl, rfl, rfl, rfl⟩
  show (sb.m_count + 1) % UINT_MOD = sb.m_count + 1
  exact Nat.mod_eq_of_lt h

/-- C10 witness: on a fresh barrier a tracked submission leaves the counter
at exactly 1. -/
theorem C10_tracked_registers_once_witness :
    (synched_t.init 0).m_count + 1 < UINT_MOD ∧
    (@parallel.tracked (Unit → Unit) Unit (synched_t.init 0)
        (fun u => u)).1.m_count = (synched_t.init 0).m_count + 1 :=
  ⟨by decide,
    (C10_tracked_registers_once (Unit → Unit) Unit (synched_t.init 0)
      (fun u => u) []).2.1 (by decide)⟩

end CppUtils
